import Mathlib

/-!
Shallow embedding of the swap-orchestration core of the
stablecoin-arbitrage-bridge repository, together with theorems settling the
frozen claims about its specification.

Conventions:
* JS numbers are modelled as `ℚ`; `parseFloat(x.toFixed(4))` becomes `round4`.
* JS string enums (statuses, step types, chain names) stay `String`.
* Unix-epoch timestamps (`Math.floor(Date.now() / 1000)`) are `ℤ` seconds;
  ISO-string timestamps are modelled by the same epoch value.
* Collaborator calls (DEX swaps, price fetches) are modelled by passing their
  outcomes as explicit arguments; `Option` marks a call that may throw.
* Purely presentational response fields (interpolated description strings,
  static feature lists, explorer URLs) are elided from the embedded records.
-/

/-- Models `parseFloat(x.toFixed(4))`: round to 4 decimal places
(ties away from zero for the nonnegative values that occur here). -/
def round4 (x : ℚ) : ℚ := ((round (x * 10000) : ℤ) : ℚ) / 10000

/-- Models `parseFloat(x.toFixed(3))`. -/
def round3 (x : ℚ) : ℚ := ((round (x * 1000) : ℤ) : ℚ) / 1000

/-- The confidence labels used by the scanning code. -/
inductive Confidence
  | HIGH
  | MEDIUM
  | LOW
deriving DecidableEq, Repr

/-- Two-threshold confidence classifier: `HIGH` above `hi`, `MEDIUM` above
`mid`, else `LOW`.  `specTier 1 (1/2)` is the tier function the spec
describes (HIGH if spread > 1.0%, MEDIUM if > 0.5%, else LOW). -/
def specTier (hi mid spread : ℚ) : Confidence :=
  if spread > hi then .HIGH else if spread > mid then .MEDIUM else .LOW

/-- Confidence assignment of the ETH-SUI branch of
`scanForArbitrageOpportunities` (services/trading.js):
`prices.spread > 1.0 ? 'HIGH' : prices.spread > 0.5 ? 'MEDIUM' : 'LOW'`. -/
def ethSuiConfidence (spread : ℚ) : Confidence :=
  if spread > 1 then .HIGH else if spread > 1/2 then .MEDIUM else .LOW

/-- Confidence assignment of `scanCrossChainPair` (services/trading.js):
`spread > 1.5 ? 'HIGH' : spread > 0.8 ? 'MEDIUM' : 'LOW'`. -/
def crossChainConfidence (spread : ℚ) : Confidence :=
  if spread > 3/2 then .HIGH else if spread > 4/5 then .MEDIUM else .LOW

/-- Confidence assignment of `scanCeloOpportunitiesSimplified`
(services/trading.js): `pair.spread > 1.0 ? 'HIGH' : 'MEDIUM'`. -/
def celoNativeConfidence (spread : ℚ) : Confidence :=
  if spread > 1 then .HIGH else .MEDIUM

/-- The ordering used by `priceEntries.sort((a, b) => b[1] - a[1])` in
`scanCrossChainPair`: descending by price.  JS `Array.prototype.sort` is
stable, so the embedding below uses the (stable) insertion sort. -/
def entGE (a b : String × ℚ) : Prop := b.2 ≤ a.2

instance : DecidableRel entGE :=
  fun a b => inferInstanceAs (Decidable (b.2 ≤ a.2))

instance : IsTotal (String × ℚ) entGE := ⟨fun a b => le_total b.2 a.2⟩

instance : IsTrans (String × ℚ) entGE := ⟨fun _ _ _ hab hbc => le_trans hbc hab⟩

instance : IsRefl (String × ℚ) entGE := ⟨fun a => le_refl a.2⟩

/-- The spread computed by `scanCrossChainPair` from the per-chain price
entries before rounding: sort descending, take highest (index 0) and lowest
(last index), then `(highestPrice - lowestPrice) / lowestPrice * 100`. -/
def pairSpreadPercent (prices : List (String × ℚ)) : ℚ :=
  let sorted := List.insertionSort entGE prices
  let highest := sorted.headD ("", 0)
  let lowest := sorted.getLastD ("", 0)
  (highest.2 - lowest.2) / lowest.2 * 100

/-- The fields of the opportunity object built by `scanCrossChainPair` that
carry the spread computation (elided: recommendedAmount, gas estimates and
other presentational fields). -/
structure CrossChainOpp where
  spread : ℚ
  direction : String
  buyChain : String
  sellChain : String
  confidence : Confidence
deriving DecidableEq, Repr

/-- Embedding of `scanCrossChainPair` (services/trading.js) as a function of
the per-chain prices it fetched: sorts the entries descending by price,
takes highest and lowest, computes the spread, and emits an opportunity iff
the spread reaches `minProfitPercent` (else the scan yields `null`). -/
def scanCrossChainPair (minProfitPercent : ℚ) (prices : List (String × ℚ)) :
    Option CrossChainOpp :=
  let sorted := List.insertionSort entGE prices
  let highest := sorted.headD ("", 0)
  let lowest := sorted.getLastD ("", 0)
  if pairSpreadPercent prices ≥ minProfitPercent then
    some { spread := round4 (pairSpreadPercent prices)
           direction := lowest.1 ++ "_to_" ++ highest.1
           buyChain := lowest.1
           sellChain := highest.1
           confidence := crossChainConfidence (pairSpreadPercent prices) }
  else none

/-- The result record of `checkCrossChainSpread` (services/blockchain.js). -/
structure SpreadCheck where
  spread : ℚ
  meetsThreshold : Bool
  direction : String
deriving DecidableEq, Repr

/-- Embedding of `checkCrossChainSpread` (services/blockchain.js) as a
function of the two prices it drew:
`spread = Math.abs(sourcePrice - destPrice) / destPrice * 100`, reported
rounded to 4 decimals; note the divisor is `destPrice`, not the minimum. -/
def checkCrossChainSpread (sourcePrice destPrice minSpread : ℚ) : SpreadCheck :=
  let spread := |sourcePrice - destPrice| / destPrice * 100
  { spread := round4 spread
    meetsThreshold := decide (spread ≥ minSpread)
    direction := if sourcePrice > destPrice then "positive" else "negative" }

/-- The spread reported by `getCurrentDEXPrices` (services/dex.js) as a
function of the two prices and the drawn volatility multiplier:
`spread = |eth - sui| / min(eth, sui) * 100`, then
`adjustedSpread = spread * volatilityMultiplier`, reported
`parseFloat(adjustedSpread.toFixed(4))`. -/
def getCurrentDEXPricesSpread (ethereumPrice suiPrice volatilityMultiplier : ℚ) : ℚ :=
  round4 (|ethereumPrice - suiPrice| / min ethereumPrice suiPrice * 100 *
    volatilityMultiplier)

/-- Embedding of `getChainPrice` (services/trading.js).  `fetched = none`
models the underlying price fetch throwing, in which case the catch block
returns the fabricated price `1.0 + (Math.random() - 0.5) * 0.002`
(`fallbackNoise` is the drawn offset); `fetched = some p` models a returned
price field, where JS `p || 1.0` replaces a falsy (zero) price by 1. -/
def getChainPrice (fetched : Option ℚ) (fallbackNoise : ℚ) : ℚ :=
  match fetched with
  | some p => if p = 0 then 1 else p
  | none => 1 + fallbackNoise

/-- The per-chain prices `scanCrossChainPair` works from, after
`getChainPrice` has been applied to each fetch outcome. -/
def substitutedPrices (fetches : List (String × Option ℚ)) (fallbackNoise : ℚ) :
    List (String × ℚ) :=
  fetches.map (fun cf => (cf.1, getChainPrice cf.2 fallbackNoise))

/-- `scanCrossChainPair` composed with the `getChainPrice` fetch loop, as the
source runs them: one `getChainPrice` call per chain, then the spread
computation over the resulting prices. -/
def scanPairWithFetches (minProfitPercent : ℚ)
    (fetches : List (String × Option ℚ)) (fallbackNoise : ℚ) :
    Option CrossChainOpp :=
  scanCrossChainPair minProfitPercent (substitutedPrices fetches fallbackNoise)

/-- The fields of an enriched opportunity that feed the ranking comparator in
`router.get('/scan-opportunities')` (routes, enhanced variant):
`profitability.estimatedNet` and `executionComplexity.score`. -/
structure Opp where
  estimatedNet : ℚ
  complexityScore : ℚ
  confidence : Confidence
deriving DecidableEq, Repr

/-- The score used by the ranking comparator:
`parseFloat(o.profitability.estimatedNet) - o.executionComplexity.score * 0.1`. -/
def oppScore (o : Opp) : ℚ := o.estimatedNet - o.complexityScore * (1/10)

/-- The ordering induced by the comparator
`(a, b) => scoreB - scoreA`: descending by score. -/
def oppGE (a b : Opp) : Prop := oppScore b ≤ oppScore a

instance : DecidableRel oppGE :=
  fun a b => inferInstanceAs (Decidable (oppScore b ≤ oppScore a))

instance : IsTotal Opp oppGE := ⟨fun a b => le_total (oppScore b) (oppScore a)⟩

instance : IsTrans Opp oppGE := ⟨fun _ _ _ hab hbc => le_trans hbc hab⟩

instance : IsRefl Opp oppGE := ⟨fun a => le_refl (oppScore a)⟩

/-- Embedding of `enrichedOpportunities.sort((a, b) => scoreB - scoreA)`:
JS `Array.prototype.sort` is stable (ES2019), and a stable sort under a total
preorder has a unique result, here realised by insertion sort. -/
def rankSort (l : List Opp) : List Opp := List.insertionSort oppGE l

/-- A collaborator swap call issued by `executeRealArbitrageTrade`
(`executeEthereumSwap` / `executeSuiSwap` / `executeCeloStablecoinSwap`),
with the arguments the source passes. -/
structure SwapCall where
  chain : String
  tokenIn : String
  tokenOut : String
  amountIn : ℚ
  minAmountOut : ℚ
deriving DecidableEq, Repr

/-- The request fields `executeRealArbitrageTrade` destructures
(`tokenPair.split('-')` already applied). -/
structure TradeParams where
  token1 : String
  token2 : String
  amount : ℚ
  direction : String
  expectedSpread : ℚ
  maxSlippage : ℚ
deriving DecidableEq, Repr

/-- Outcomes of the collaborator calls `executeRealArbitrageTrade` makes:
the re-measured spread from `getCurrentDEXPrices`, and the `success` flags of
the two swap calls. -/
structure Collab where
  currentSpread : ℚ
  step1Success : Bool
  step2Success : Bool
deriving DecidableEq, Repr

/-- Result of one `executeRealArbitrageTrade` run: the returned `success`
flag and the ordered trace of collaborator swap calls actually issued. -/
structure TradeOutcome where
  success : Bool
  calls : List SwapCall
deriving DecidableEq, Repr

/-- The direction dispatch of `executeRealArbitrageTrade`: step-1 chain,
step-2 chain, and the fee factor applied to the step-2 input amount
(`0.997`, `0.999` or `0.9995` depending on the branch). -/
def directionChains (direction : String) : Option (String × String × ℚ) :=
  if direction = "eth_to_sui" then some ("ethereum", "sui", 997/1000)
  else if direction = "sui_to_eth" then some ("sui", "ethereum", 997/1000)
  else if direction = "eth_to_celo" then some ("ethereum", "celo", 997/1000)
  else if direction = "celo_to_eth" then some ("celo", "ethereum", 999/1000)
  else if direction = "sui_to_celo" then some ("sui", "celo", 9995/10000)
  else if direction = "celo_to_sui" then some ("celo", "sui", 9995/10000)
  else none

/-- Embedding of `executeRealArbitrageTrade` (services/trading.js).  In
order: the amount and expected-spread safety checks, the re-measured spread
check (`currentPrices.spread < expectedSpread * 0.8` throws before any swap),
then the two swap steps; a thrown error is caught and returned as
`success: false`.  Balance and price fetches are not swap calls and are not
traced. -/
def executeRealArbitrageTrade (p : TradeParams) (c : Collab)
    (maxAmountUSD minProfitPercent : ℚ) : TradeOutcome :=
  if p.amount > maxAmountUSD then ⟨false, []⟩
  else if p.expectedSpread < minProfitPercent then ⟨false, []⟩
  else if c.currentSpread < p.expectedSpread * (4/5) then ⟨false, []⟩
  else
    match directionChains p.direction with
    | none => ⟨false, []⟩
    | some (chain1, chain2, fee) =>
      let call1 : SwapCall :=
        ⟨chain1, p.token1, p.token2, p.amount, p.amount * (1 - p.maxSlippage/100)⟩
      if c.step1Success then
        let call2 : SwapCall :=
          ⟨chain2, p.token2, p.token1, p.amount * fee,
            p.amount * (1 + p.expectedSpread/100) * (1 - p.maxSlippage/100)⟩
        if c.step2Success then ⟨true, [call1, call2]⟩
        else ⟨false, [call1, call2]⟩
      else ⟨false, [call1]⟩

/-- A per-route result record of `executeTwoChainArbitrage` /
`executeTriangularArbitrage`: its `success` field. -/
structure RouteResult where
  success : Bool
deriving DecidableEq, Repr

/-- Embedding of `executeTwoChainArbitrage` (services/trading.js) over the
step outcomes: a step-1 failure throws (`none`); a step-2 failure does NOT
throw — the function returns `success: step1 && step2`. -/
def executeTwoChainArbitrage (s1 s2 : Bool) : Option RouteResult :=
  if s1 then some ⟨s1 && s2⟩ else none

/-- Embedding of `executeTriangularArbitrage` (services/trading.js): step-1
or step-2 failure throws; a step-3 failure is returned, not thrown. -/
def executeTriangularArbitrage (s1 s2 s3 : Bool) : Option RouteResult :=
  if s1 then (if s2 then some ⟨s1 && s2 && s3⟩ else none) else none

/-- Embedding of `executeEnhancedCrossChainArbitrage` (services/trading.js):
after the amount and chain-count validations it runs the two- or three-chain
routine; a throw is caught (`success: false`), but when the routine returns
normally the overall response is `success: true` regardless of the returned
route result. -/
def executeEnhancedCrossChainArbitrage (amount maxAmountUSD : ℚ)
    (nChains : ℕ) (s1 s2 s3 : Bool) : Bool × List RouteResult :=
  if amount > maxAmountUSD then (false, [])
  else if nChains < 2 ∨ nChains > 3 then (false, [])
  else
    match (if nChains = 2 then executeTwoChainArbitrage s1 s2
           else executeTriangularArbitrage s1 s2 s3) with
    | none => (false, [])
    | some res => (true, [res])

/-- Status of one execution-plan step. -/
inductive StepStatus
  | PENDING
  | COMPLETED
  | FAILED
deriving DecidableEq, Repr, BEq

/-- Modelled from the spec: the Swap State Machine view that
`recordStepResult` operates on (§4.5) — the ordered step statuses and the
overall machine status.  The `execute-step` driver that the routes advertise
(`nextStep: 'Use POST /api/swap/execute-step ...'`) is not present under
`src/`, so this machine is modelled from the spec's words. -/
structure Machine where
  stepStatuses : List StepStatus
  status : String
deriving DecidableEq, Repr

/-- Modelled from the spec: `recordStepResult(stepIndex, success, detail)`
(§4.5) — "advances stepIndex's status, and on success of the last step moves
the whole machine to COMPLETED; on failure moves the whole machine to FAILED
without attempting later steps". -/
def recordStepResult (m : Machine) (i : ℕ) (success : Bool) : Machine :=
  let sts := m.stepStatuses.set i (if success then .COMPLETED else .FAILED)
  if success then
    if sts.all (fun s => s == .COMPLETED) then ⟨sts, "COMPLETED"⟩
    else ⟨sts, m.status⟩
  else ⟨sts, "FAILED"⟩

/-- Modelled from the spec: the coordinator's step loop (§4.6) — "for each
step in order … call `recordStepResult` with the outcome; stop at the first
failure".  `outcomes` are the collaborator results for the steps from index
`i` on. -/
def runPlan : Machine → ℕ → List Bool → Machine
  | m, _, [] => m
  | m, i, r :: rs =>
    let m1 := recordStepResult m i r
    if r then runPlan m1 (i + 1) rs else m1

/-- Outcome of the request-validation sequence of
`router.post('/execute-arbitrage')` (routes, enhanced variant), in source
order. -/
inductive GateResult
  | missingFields
  | unsupportedDirection
  | mustConfirm
  | notEnabled
  | amountExceedsLimit
  | ok
deriving DecidableEq, Repr

/-- The `supportedDirections` list of the execute-arbitrage route. -/
def supportedDirections : List String :=
  ["eth_to_sui", "sui_to_eth", "eth_to_celo", "celo_to_eth",
   "sui_to_celo", "celo_to_sui", "celo_native"]

/-- Embedding of the validation sequence of
`router.post('/execute-arbitrage')`, first failure wins.  JS truthiness in
`if (!tokenPair || !amount || !direction || !expectedSpread)` is modelled
exactly: a string is falsy iff empty, a number is falsy iff zero, so a
NEGATIVE amount passes this check, and no `amount > 0` rule exists
anywhere in the sequence. -/
def executeArbitrageGate (tokenPair : String) (amount : ℚ) (direction : String)
    (expectedSpread : ℚ) (confirmRealMoney dryRun enableRealTrading : Bool)
    (maxAmount : ℚ) : GateResult :=
  if tokenPair = "" ∨ amount = 0 ∨ direction = "" ∨ expectedSpread = 0 then
    .missingFields
  else if ¬ (direction ∈ supportedDirections) then .unsupportedDirection
  else if !confirmRealMoney && !dryRun then .mustConfirm
  else if !dryRun && !enableRealTrading then .notEnabled
  else if amount > maxAmount then .amountExceedsLimit
  else .ok

/-- One step of an execution plan, with the machine-relevant fields of the
step objects built by the routes (`type`, `status`, `requiresSignature`,
`chain`); steps without a `requiresSignature` property are modelled with
`false`, steps without a `chain` property with `none`. -/
structure PlanStep where
  type : String
  status : String
  requiresSignature : Bool
  chain : Option String
deriving DecidableEq, Repr

/-- Embedding of `createEnhancedExecutionPlan` (routes, enhanced variant):
the step list for a `via = "native"` pair and for a bridge pair.  The inline
plan of the older `router.post('/bidirectional-real')` builds the same
native step sequence. -/
def createEnhancedExecutionPlan (via fromChain toChain : String) :
    List PlanStep :=
  if via = "native" then
    [ ⟨"SPREAD_VERIFICATION", "COMPLETED", false, none⟩,
      ⟨"WALLET_PREPARATION", "PENDING", true, some fromChain⟩,
      ⟨"SOURCE_SWAP", "PENDING", true, some fromChain⟩,
      ⟨"BRIDGE_TRANSFER", "PENDING", false, none⟩,
      ⟨"DESTINATION_SWAP", "PENDING", true, some toChain⟩ ]
  else
    [ ⟨"SPREAD_VERIFICATION", "COMPLETED", false, none⟩,
      ⟨"BRIDGE_PREPARATION", "PENDING", true, some fromChain⟩,
      ⟨"SOURCE_SWAP", "PENDING", true, some fromChain⟩,
      ⟨"BRIDGE_EXECUTION", "PENDING", false, none⟩,
      ⟨"DESTINATION_SWAP", "PENDING", true, some toChain⟩ ]

/-- The per-swap state object of the routes' `SwapState` class plus the
fields attached after construction (`spreadCheck`, `executionPlan`).
`secret` and `hashlock` are the two separately stored commitment strings
(`hashlock = sha256(secret)` at creation time); timestamps are epoch
seconds. -/
structure SwapState where
  swapId : String
  fromChain : String
  toChain : String
  fromToken : String
  toToken : String
  amount : ℚ
  minSpread : ℚ
  maxSlippage : ℚ
  enableAtomicSwap : Bool
  hashlock : String
  secret : String
  timelock : ℤ
  status : String
  arbitrageType : String
  steps : List PlanStep
  planSteps : List PlanStep
  spreadCheck : Option SpreadCheck
  createdAt : ℤ
  updatedAt : ℤ
deriving DecidableEq, Repr

/-- Embedding of `SwapState.updateStatus`: set the status and refresh
`updatedAt`. -/
def updateStatus (s : SwapState) (newStatus : String) (now : ℤ) : SwapState :=
  { s with status := newStatus, updatedAt := now }

/-- Embedding of the swap creation performed by
`router.post('/bidirectional-real')` (enhanced variant): a fresh state with
`timelock = now + timeoutMinutes * 60`, the enhanced execution plan
attached, and status moved `CREATED → PLAN_CREATED` before registration. -/
def bidirectionalRealCreate (now timeoutMinutes : ℤ)
    (fromChain toChain fromToken toToken : String)
    (amount minSpread maxSlippage : ℚ) (enableAtomicSwap : Bool)
    (secret hashlock : String) (sc : SpreadCheck) (via : String) : SwapState :=
  updateStatus
    { swapId := "atomic"
      fromChain := fromChain
      toChain := toChain
      fromToken := fromToken
      toToken := toToken
      amount := amount
      minSpread := minSpread
      maxSlippage := maxSlippage
      enableAtomicSwap := enableAtomicSwap
      hashlock := hashlock
      secret := secret
      timelock := now + timeoutMinutes * 60
      status := "CREATED"
      arbitrageType := "atomic_swap"
      steps := []
      planSteps := createEnhancedExecutionPlan via fromChain toChain
      spreadCheck := some sc
      createdAt := now
      updatedAt := now } "PLAN_CREATED" now

/-- The `atomicGuarantees` object of the status response. -/
structure AtomicGuarantees where
  hashlock : String
  secretRevealed : Bool
  canRefund : Bool
deriving DecidableEq, Repr

/-- The data object returned by `router.get('/status-real/:swapId')`
(enhanced variant), with presentational string formatting elided: every
field is a function of the stored swap state, the query time and the freshly
fetched current spread.  Note there is no field carrying `secret`. -/
structure StatusView where
  swapId : String
  status : String
  arbitrageType : String
  completedSteps : ℕ
  failedSteps : ℕ
  totalSteps : ℕ
  currentStep : ℕ
  fromChain : String
  toChain : String
  fromToken : String
  toToken : String
  amount : ℚ
  minSpread : ℚ
  maxSlippage : ℚ
  initialSpread : Option ℚ
  currentSpreadValue : Option ℚ
  stillProfitable : Option Bool
  spreadDirection : Option String
  spreadChange : Option ℚ
  createdAt : ℤ
  updatedAt : ℤ
  timeRemaining : ℤ
  isExpired : Bool
  timelock : ℤ
  atomicGuarantees : Option AtomicGuarantees
  planSteps : List PlanStep
  stepHistory : List PlanStep
deriving DecidableEq, Repr

/-- Embedding of the `router.get('/status-real/:swapId')` handler (enhanced
variant) for a swap found in the registry: computes progress counters, runs
the lazy expiry check (`if (isExpired && swapState.status !== 'EXPIRED')
swapState.updateStatus('EXPIRED')` — with no exception for `COMPLETED`),
then builds the response from the (possibly updated) state.  Returns the
updated registry state together with the response view.  `cur` is the
outcome of the fresh `checkCrossChainSpread` call (`none` if it threw). -/
def statusReal (s : SwapState) (now : ℤ) (cur : Option SpreadCheck) :
    SwapState × StatusView :=
  let completedSteps := (s.planSteps.filter (fun st => st.status = "COMPLETED")).length
  let failedSteps := (s.planSteps.filter (fun st => st.status = "FAILED")).length
  let totalSteps := s.planSteps.length
  let isExpired : Bool := decide (now > s.timelock)
  let s1 := if now > s.timelock ∧ s.status ≠ "EXPIRED" then updateStatus s "EXPIRED" now else s
  let currentStep := match s.planSteps.findIdx? (fun st => st.status = "PENDING") with
    | some i => i
    | none => totalSteps
  (s1,
   { swapId := s.swapId
     status := s1.status
     arbitrageType := s.arbitrageType
     completedSteps := completedSteps
     failedSteps := failedSteps
     totalSteps := totalSteps
     currentStep := currentStep
     fromChain := s.fromChain
     toChain := s.toChain
     fromToken := s.fromToken
     toToken := s.toToken
     amount := s.amount
     minSpread := s.minSpread
     maxSlippage := s.maxSlippage
     initialSpread := s.spreadCheck.map (fun sc => sc.spread)
     currentSpreadValue := cur.map (fun sc => sc.spread)
     stillProfitable := cur.map (fun sc => sc.meetsThreshold)
     spreadDirection := cur.map (fun sc => sc.direction)
     spreadChange :=
       match cur, s.spreadCheck with
       | some c, some i => some (round3 (c.spread - i.spread))
       | _, _ => none
     createdAt := s.createdAt
     updatedAt := s1.updatedAt
     timeRemaining := max 0 (s.timelock - now)
     isExpired := isExpired
     timelock := s.timelock
     atomicGuarantees :=
       if s.enableAtomicSwap then
         some { hashlock := s.hashlock
                secretRevealed := decide (s1.status = "COMPLETED")
                canRefund := isExpired || decide (s1.status = "FAILED") }
       else none
     planSteps := s.planSteps
     stepHistory := s.steps })

/-- A registry entry whose timelock has passed while its machine status is
already `COMPLETED` (every plan step settled): probe input for the lazy
expiry check of the status route. -/
def completedButPastTimelock : SwapState :=
  { swapId := "atomic_1"
    fromChain := "ethereum"
    toChain := "sui"
    fromToken := "USDC"
    toToken := "USDC"
    amount := 50
    minSpread := 1/2
    maxSlippage := 1
    enableAtomicSwap := true
    hashlock := "c0ffee"
    secret := "decafbad"
    timelock := 60
    status := "COMPLETED"
    arbitrageType := "atomic_swap"
    steps := []
    planSteps :=
      [ ⟨"SPREAD_VERIFICATION", "COMPLETED", false, none⟩,
        ⟨"WALLET_PREPARATION", "COMPLETED", true, some "ethereum"⟩,
        ⟨"SOURCE_SWAP", "COMPLETED", true, some "ethereum"⟩,
        ⟨"BRIDGE_TRANSFER", "COMPLETED", false, none⟩,
        ⟨"DESTINATION_SWAP", "COMPLETED", true, some "sui"⟩ ]
    spreadCheck := some ⟨3/5, true, "positive"⟩
    createdAt := 0
    updatedAt := 30 }

lemma mem_headD_of_ne_nil {α} (l : List α) (d : α) (h : l ≠ []) : l.headD d ∈ l := by
  cases l with
  | nil => exact absurd rfl h
  | cons a t => exact List.mem_cons_self a t

lemma mem_getLastD_of_ne_nil {α} : ∀ (l : List α) (d : α), l ≠ [] → l.getLastD d ∈ l
  | [], _, h => absurd rfl h
  | [a], d, _ => by simp
  | a :: b :: t, d, _ => by
    rw [List.getLastD_cons]
    exact List.mem_cons_of_mem a (mem_getLastD_of_ne_nil (b :: t) a (by simp))

lemma sorted_headD_max {l : List (String × ℚ)} (d : String × ℚ)
    (hs : l.Sorted entGE) {e : String × ℚ} (he : e ∈ l) : e.2 ≤ (l.headD d).2 := by
  cases l with
  | nil => exact absurd he (List.not_mem_nil e)
  | cons a t =>
    rcases List.mem_cons.mp he with rfl | hmem
    · exact le_refl _
    · exact List.rel_of_sorted_cons hs e hmem

lemma sorted_getLastD_min :
    ∀ (l : List (String × ℚ)) (d : String × ℚ), l.Sorted entGE →
      ∀ e ∈ l, (l.getLastD d).2 ≤ e.2
  | [], _, _, e, he => absurd he (List.not_mem_nil e)
  | [a], d, _, e, he => by
    rcases List.mem_cons.mp he with rfl | hmem
    · simp
    · exact absurd hmem (List.not_mem_nil e)
  | a :: b :: t, d, hs, e, he => by
    rw [List.getLastD_cons]
    rcases List.mem_cons.mp he with rfl | hmem
    · exact List.rel_of_sorted_cons hs _
        (mem_getLastD_of_ne_nil (b :: t) e (by simp))
    · exact sorted_getLastD_min (b :: t) a (List.sorted_cons.mp hs).2 e hmem

lemma directionChains_chains_ne {d a b : String} {f : ℚ}
    (h : directionChains d = some (a, b, f)) : a ≠ b := by
  unfold directionChains at h
  repeat' split at h
  all_goals first
    | exact Option.noConfusion h
    | (simp only [Option.some.injEq, Prod.mk.injEq] at h
       obtain ⟨rfl, rfl, -⟩ := h
       decide)

lemma rankSort_of_const_score :
    ∀ (l : List Opp), (∀ a ∈ l, ∀ b ∈ l, oppScore a = oppScore b) →
      rankSort l = l := by
  intro l
  induction l with
  | nil => intro _; rfl
  | cons x xs ih =>
    intro h
    have hxs : rankSort xs = xs := by
      refine ih fun a ha b hb => h a ?_ b ?_
      · exact List.mem_cons_of_mem x ha
      · exact List.mem_cons_of_mem x hb
    show List.orderedInsert oppGE x (rankSort xs) = x :: xs
    rw [hxs]
    cases xs with
    | nil => rfl
    | cons y ys =>
      have hxy : oppGE x y := le_of_eq (h y (by simp) x (by simp))
      unfold List.orderedInsert
      rw [if_pos hxy]

/-- C5 (amended): in `scanCrossChainPair` every emitted opportunity has
`spread = round4 ((max - min) / min * 100)` with `buyChain` a minimum-price
chain and `sellChain` a maximum-price chain; but the other two cited spread
paths compute different formulas: `checkCrossChainSpread` divides by the
destination price (not the minimum), and `getCurrentDEXPrices` multiplies
the raw spread by the drawn volatility multiplier. -/
theorem scanCrossChainPair_spread_formula :
    (∀ (minP : ℚ) (prices : List (String × ℚ)) (opp : CrossChainOpp),
      prices ≠ [] → scanCrossChainPair minP prices = some opp →
      ∃ be se, be ∈ prices ∧ se ∈ prices ∧
        opp.buyChain = be.1 ∧ opp.sellChain = se.1 ∧
        (∀ e ∈ prices, be.2 ≤ e.2 ∧ e.2 ≤ se.2) ∧
        opp.spread = round4 ((se.2 - be.2) / be.2 * 100))
  ∧ (∀ s d minS : ℚ,
      (checkCrossChainSpread s d minS).spread = round4 (|s - d| / d * 100))
  ∧ (∀ e su m : ℚ,
      getCurrentDEXPricesSpread e su m = round4 (|e - su| / min e su * 100 * m)) := by
  refine ⟨?_, fun s d minS => rfl, fun e su m => rfl⟩
  intro minP prices opp hne h
  simp only [scanCrossChainPair] at h
  by_cases hge : pairSpreadPercent prices ≥ minP
  · rw [if_pos hge] at h
    have hopp := (Option.some.inj h).symm
    have hsne : List.insertionSort entGE prices ≠ [] := by
      intro h0
      exact hne ((h0 ▸ List.perm_insertionSort entGE prices).symm.eq_nil)
    have hsor := List.sorted_insertionSort entGE prices
    have hperm := List.perm_insertionSort entGE prices
    refine ⟨(List.insertionSort entGE prices).getLastD ("", 0),
            (List.insertionSort entGE prices).headD ("", 0),
            hperm.subset (mem_getLastD_of_ne_nil _ _ hsne),
            hperm.subset (mem_headD_of_ne_nil _ _ hsne),
            by rw [hopp], by rw [hopp], ?_, ?_⟩
    · intro e he
      have hes : e ∈ List.insertionSort entGE prices := hperm.symm.subset he
      exact ⟨sorted_getLastD_min _ _ hsor e hes, sorted_headD_max _ hsor hes⟩
    · rw [hopp]
      rfl
  · rw [if_neg hge] at h
    exact absurd h (by simp)

/-- C5 witness: applying the theorem at the concrete 2-chain price set
ethereum ↦ 1, celo ↦ 1.01 and threshold 0.3%. -/
theorem scanCrossChainPair_spread_formula_witness :
    ∃ be se, be ∈ [("ethereum", (1 : ℚ)), ("celo", 101/100)] ∧
      se ∈ [("ethereum", (1 : ℚ)), ("celo", 101/100)] ∧
      (CrossChainOpp.mk 1 "ethereum_to_celo" "ethereum" "celo" .MEDIUM).buyChain = be.1 ∧
      (CrossChainOpp.mk 1 "ethereum_to_celo" "ethereum" "celo" .MEDIUM).sellChain = se.1 ∧
      (∀ e ∈ [("ethereum", (1 : ℚ)), ("celo", 101/100)], be.2 ≤ e.2 ∧ e.2 ≤ se.2) ∧
      (CrossChainOpp.mk 1 "ethereum_to_celo" "ethereum" "celo" .MEDIUM).spread =
        round4 ((se.2 - be.2) / be.2 * 100) :=
  scanCrossChainPair_spread_formula.1 (3/10)
    [("ethereum", (1 : ℚ)), ("celo", 101/100)]
    (CrossChainOpp.mk 1 "ethereum_to_celo" "ethereum" "celo" .MEDIUM)
    (by simp)
    (by
      norm_num [scanCrossChainPair, pairSpreadPercent, round4,
        crossChainConfidence, entGE]
      rfl)

/-- C5 counterexample: `checkCrossChainSpread` at source price 1 and
destination price 2 reports a spread of 50, but the claimed formula
`(max - min) / min * 100` gives 100. -/
theorem checkCrossChainSpread_formula_counterexample :
    (checkCrossChainSpread 1 2 0).spread = 50 ∧
    round4 ((2 - 1) / 1 * 100) = 100 ∧ (50 : ℚ) ≠ 100 := by
  refine ⟨?_, ?_, by norm_num⟩
  · norm_num [checkCrossChainSpread, round4]
  · norm_num [round4]

/-- C6 (amended): the 1.0%/0.5% confidence tiers the spec states hold only
in the ETH-SUI scan branch; `scanCrossChainPair` uses 1.5%/0.8% thresholds,
and the Celo-native scan never assigns `LOW`. -/
theorem confidence_tiers :
    ∀ s : ℚ, ethSuiConfidence s = specTier 1 (1/2) s
      ∧ crossChainConfidence s = specTier (3/2) (4/5) s
      ∧ celoNativeConfidence s ≠ .LOW := by
  intro s
  refine ⟨rfl, rfl, ?_⟩
  unfold celoNativeConfidence
  split
  · simp
  · simp

/-- C6 counterexample: at a spread of 0.6% the cross-chain scan path assigns
`LOW` while the claimed uniform tiers (and the ETH-SUI path) give `MEDIUM`;
at a spread of 0.3% the Celo-native path assigns `MEDIUM` while the claimed
tiers give `LOW`. -/
theorem confidence_tiers_counterexample :
    crossChainConfidence (3/5) = .LOW ∧ ethSuiConfidence (3/5) = .MEDIUM ∧
    celoNativeConfidence (3/10) = .MEDIUM ∧ specTier 1 (1/2) (3/10) = .LOW := by
  refine ⟨?_, ?_, ?_, ?_⟩ <;>
    norm_num [crossChainConfidence, ethSuiConfidence, celoNativeConfidence,
      specTier]

/-- C7: the execution plan for a bilateral native route is exactly one
`SPREAD_VERIFICATION` step with status `COMPLETED` followed by exactly four
`PENDING` steps in the order `WALLET_PREPARATION`, `SOURCE_SWAP`,
`BRIDGE_TRANSFER`, `DESTINATION_SWAP`. -/
theorem native_plan_shape :
    ∀ fromChain toChain : String,
      (createEnhancedExecutionPlan "native" fromChain toChain).map PlanStep.type =
        ["SPREAD_VERIFICATION", "WALLET_PREPARATION", "SOURCE_SWAP",
         "BRIDGE_TRANSFER", "DESTINATION_SWAP"] ∧
      (createEnhancedExecutionPlan "native" fromChain toChain).map PlanStep.status =
        ["COMPLETED", "PENDING", "PENDING", "PENDING", "PENDING"] := by
  intro f t
  exact ⟨rfl, rfl⟩

/-- C8 (amended): the ranked list is sorted descending by
`estimatedNet − 0.1 × complexity score` and is a permutation of the input;
ties are NOT broken by confidence or complexity — equal-score opportunities
keep their insertion order (stability of the sort). -/
theorem rank_sort_order :
    ∀ l : List Opp,
      List.Sorted oppGE (rankSort l) ∧ (rankSort l).Perm l ∧
      ((∀ a ∈ l, ∀ b ∈ l, oppScore a = oppScore b) → rankSort l = l) := by
  intro l
  exact ⟨List.sorted_insertionSort oppGE l, List.perm_insertionSort oppGE l,
    rankSort_of_const_score l⟩

/-- C8 witness: a concrete all-tied list keeps its insertion order. -/
theorem rank_sort_order_witness :
    rankSort [⟨2, 0, .HIGH⟩, ⟨2, 0, .LOW⟩] = [⟨2, 0, .HIGH⟩, ⟨2, 0, .LOW⟩] :=
  (rank_sort_order [⟨2, 0, .HIGH⟩, ⟨2, 0, .LOW⟩]).2.2 (by
    intro a ha b hb
    rcases List.mem_cons.mp ha with rfl | ha1 <;>
      rcases List.mem_cons.mp hb with rfl | hb1 <;>
        simp_all [oppScore])

/-- C8 counterexample: two opportunities with equal scores, the first with
`LOW` and the second with `HIGH` confidence; the comparator returns 0, so
the stable sort keeps the `LOW` one first — the claimed
higher-confidence-first tie-break does not happen. -/
theorem rank_sort_tiebreak_counterexample :
    oppScore ⟨1, 0, .LOW⟩ = oppScore ⟨1, 0, .HIGH⟩ ∧
    rankSort [⟨1, 0, .LOW⟩, ⟨1, 0, .HIGH⟩] = [⟨1, 0, .LOW⟩, ⟨1, 0, .HIGH⟩] ∧
    ([⟨1, 0, .LOW⟩, ⟨1, 0, .HIGH⟩] : List Opp) ≠ [⟨1, 0, .HIGH⟩, ⟨1, 0, .LOW⟩] := by
  refine ⟨by norm_num [oppScore], ?_, by simp⟩
  norm_num [rankSort, oppGE, oppScore]

/-- C3: `executeRealArbitrageTrade` re-measures the spread and, whenever the
current spread is strictly below 80% of the expected spread, returns an
unsuccessful outcome with NO swap call issued — regardless of the other
inputs. -/
theorem spread_degradation_aborts :
    ∀ (p : TradeParams) (c : Collab) (maxA minP : ℚ),
      c.currentSpread < p.expectedSpread * (4/5) →
      executeRealArbitrageTrade p c maxA minP = ⟨false, []⟩ := by
  intro p c maxA minP h
  unfold executeRealArbitrageTrade
  split
  · rfl
  · split
    · rfl
    · rfl

/-- C3 witness: a concrete degraded-spread trade (expected 1%, current 0.5%)
is rejected with no swap executed. -/
theorem spread_degradation_aborts_witness :
    executeRealArbitrageTrade ⟨"USDC", "USDT", 50, "eth_to_sui", 1, 1⟩
      ⟨1/2, true, true⟩ 100 (3/10) = ⟨false, []⟩ :=
  spread_degradation_aborts ⟨"USDC", "USDT", 50, "eth_to_sui", 1, 1⟩
    ⟨1/2, true, true⟩ 100 (3/10) (by norm_num)

/-- C2 (amended): in `executeRealArbitrageTrade` a reported success implies
both steps succeeded, a step-1 failure stops execution after at most one
swap call with an unsuccessful outcome, a step-2 failure yields an
unsuccessful outcome, and no swap call is ever repeated (no retry); the
spec-modelled `recordStepResult` driver leaves a 4-step plan as
`[COMPLETED, FAILED, PENDING, PENDING]` with machine status `FAILED` when
step 2 fails; HOWEVER `executeEnhancedCrossChainArbitrage` reports overall
`success: true` when the final step of its route fails (only the per-route
result records the failure). -/
theorem step_failure_handling :
    ∀ (p : TradeParams) (c : Collab) (maxA minP : ℚ),
      ((executeRealArbitrageTrade p c maxA minP).success = true →
        c.step1Success = true ∧ c.step2Success = true) ∧
      (c.step1Success = false →
        (executeRealArbitrageTrade p c maxA minP).calls.length ≤ 1 ∧
        (executeRealArbitrageTrade p c maxA minP).success = false) ∧
      (c.step2Success = false →
        (executeRealArbitrageTrade p c maxA minP).success = false) ∧
      (executeRealArbitrageTrade p c maxA minP).calls.Nodup ∧
      runPlan ⟨[.PENDING, .PENDING, .PENDING, .PENDING], "IN_PROGRESS"⟩ 0
          [true, false, true, true] =
        ⟨[.COMPLETED, .FAILED, .PENDING, .PENDING], "FAILED"⟩ ∧
      executeEnhancedCrossChainArbitrage 50 100 2 true false true =
        (true, [⟨false⟩]) := by
  intro p c maxA minP
  refine ⟨?_, ?_, ?_, ?_, by decide, ?_⟩
  · intro hsucc
    unfold executeRealArbitrageTrade at hsucc
    split at hsucc
    · exact absurd hsucc (by simp)
    · split at hsucc
      · exact absurd hsucc (by simp)
      · split at hsucc
        · exact absurd hsucc (by simp)
        · split at hsucc
          · exact absurd hsucc (by simp)
          · split at hsucc
            next h1 =>
              split at hsucc
              next h2 => exact ⟨h1, h2⟩
              next h2 => exact absurd hsucc (by simp)
            next h1 => exact absurd hsucc (by simp)
  · intro h1
    unfold executeRealArbitrageTrade
    split
    · exact ⟨by simp, rfl⟩
    · split
      · exact ⟨by simp, rfl⟩
      · split
        · exact ⟨by simp, rfl⟩
        · split
          · exact ⟨by simp, rfl⟩
          · split
            next h1t => exact absurd h1t (by simp [h1])
            next => exact ⟨by simp, rfl⟩
  · intro h2
    unfold executeRealArbitrageTrade
    split
    · rfl
    · split
      · rfl
      · split
        · rfl
        · split
          · rfl
          · split
            · split
              next h2t => exact absurd h2t (by simp [h2])
              next => rfl
            · rfl
  · unfold executeRealArbitrageTrade
    split
    · simp
    · split
      · simp
      · split
        · simp
        · split
          · simp
          · next chain1 chain2 fee heq =>
            have hne := directionChains_chains_ne heq
            split
            · split
              · simp only [List.nodup_cons, List.mem_singleton,
                  List.not_mem_nil, not_false_eq_true, List.nodup_nil,
                  and_true, List.mem_cons, or_false]
                intro hc
                exact hne (congrArg SwapCall.chain hc)
              · simp only [List.nodup_cons, List.mem_singleton,
                  List.not_mem_nil, not_false_eq_true, List.nodup_nil,
                  and_true, List.mem_cons, or_false]
                intro hc
                exact hne (congrArg SwapCall.chain hc)
            · simp
  · norm_num [executeEnhancedCrossChainArbitrage, executeTwoChainArbitrage]

/-- C2 witness: a concrete step-1 failure leaves at most one issued call and
an unsuccessful outcome. -/
theorem step_failure_handling_witness :
    (executeRealArbitrageTrade ⟨"USDC", "USDT", 50, "eth_to_sui", 1, 1⟩
        ⟨1, false, true⟩ 100 (3/10)).calls.length ≤ 1 ∧
    (executeRealArbitrageTrade ⟨"USDC", "USDT", 50, "eth_to_sui", 1, 1⟩
        ⟨1, false, true⟩ 100 (3/10)).success = false :=
  (step_failure_handling ⟨"USDC", "USDT", 50, "eth_to_sui", 1, 1⟩
    ⟨1, false, true⟩ 100 (3/10)).2.1 rfl

/-- C2 counterexample: with a 2-chain route where step 2 reports failure,
`executeEnhancedCrossChainArbitrage` returns overall `success: true` (only
the route result is unsuccessful) — the overall outcome is NOT
FAILED/unsuccessful as the claim states. -/
theorem step_failure_overall_success_counterexample :
    executeEnhancedCrossChainArbitrage 50 100 2 true false true =
      (true, [⟨false⟩]) ∧ (false : Bool) ≠ true := by
  refine ⟨?_, by simp⟩
  norm_num [executeEnhancedCrossChainArbitrage, executeTwoChainArbitrage]

/-- C4 (amended): an `ok` outcome of the execute-arbitrage validation
sequence implies only `amount ≠ 0` and `amount ≤ maxAmount` — there is no
`amount > 0` rule, so negative amounts pass; an amount of 0 fails the
required-fields check before any other rule; amount 150 is rejected by the
exceeds-limit rule and amount 50 is accepted when `maxAmount = 100`. -/
theorem safety_gate_amount :
    ∀ (tp : String) (amount : ℚ) (dir : String) (es : ℚ)
      (c d e : Bool) (maxA : ℚ),
      (executeArbitrageGate tp amount dir es c d e maxA = .ok →
        amount ≠ 0 ∧ amount ≤ maxA) ∧
      (amount = 0 →
        executeArbitrageGate tp amount dir es c d e maxA = .missingFields) ∧
      executeArbitrageGate "USDC-USDT" 150 "eth_to_sui" 1 true false true 100 =
        .amountExceedsLimit ∧
      executeArbitrageGate "USDC-USDT" 50 "eth_to_sui" 1 true false true 100 =
        .ok := by
  intro tp amount dir es c d e maxA
  refine ⟨?_, ?_, ?_, ?_⟩
  · intro h
    unfold executeArbitrageGate at h
    split at h
    next hc1 => exact absurd h (by simp)
    next hc1 =>
      split at h
      next => exact absurd h (by simp)
      next =>
        split at h
        next => exact absurd h (by simp)
        next =>
          split at h
          next => exact absurd h (by simp)
          next =>
            split at h
            next => exact absurd h (by simp)
            next hc5 =>
              push_neg at hc1
              exact ⟨hc1.2.1, not_lt.mp hc5⟩
  · intro h0
    unfold executeArbitrageGate
    rw [if_pos (Or.inr (Or.inl h0))]
  · norm_num [executeArbitrageGate, supportedDirections]
    decide
  · norm_num [executeArbitrageGate, supportedDirections]
    decide

/-- C4 witness: applying the theorem at the accepted concrete request with
amount 50 and limit 100. -/
theorem safety_gate_amount_witness :
    (50 : ℚ) ≠ 0 ∧ (50 : ℚ) ≤ 100 :=
  (safety_gate_amount "USDC-USDT" 50 "eth_to_sui" 1 true false true 100).1
    (by
      norm_num [executeArbitrageGate, supportedDirections]
      decide)

/-- C4 counterexample: the negative amount −5 is ACCEPTED by the validation
sequence (JS `!amount` only rejects 0, and there is no `amount > 0` rule),
refuting the claim that an amount ≤ 0 always fails rule (1). -/
theorem safety_gate_negative_amount_counterexample :
    executeArbitrageGate "USDC-USDT" (-5) "eth_to_sui" 1 true false true 100 =
      .ok ∧ ¬ ((0 : ℚ) < -5) := by
  refine ⟨?_, by norm_num⟩
  norm_num [executeArbitrageGate, supportedDirections]
  decide

/-- C9 (amended): price unavailability never surfaces from the scan — a
failed fetch is substituted by the fabricated price `1 + noise` (and a falsy
price by 1), and the only way `scanCrossChainPair` yields no opportunity is
a spread below the profit threshold, never a `PriceUnavailable` failure. -/
theorem price_fallback_no_failure :
    ∀ (minP : ℚ) (fetches : List (String × Option ℚ)) (noise : ℚ),
      (scanPairWithFetches minP fetches noise = none →
        pairSpreadPercent (substitutedPrices fetches noise) < minP) ∧
      getChainPrice none noise = 1 + noise := by
  intro minP fetches noise
  refine ⟨?_, rfl⟩
  intro h
  simp only [scanPairWithFetches, scanCrossChainPair] at h
  by_cases hge : pairSpreadPercent (substitutedPrices fetches noise) ≥ minP
  · rw [if_pos hge] at h
    exact absurd h (by simp)
  · exact lt_of_not_ge hge

/-- C9 witness: with both fetches succeeding at equal prices, the scan
yields no opportunity and the theorem places the spread below the
threshold. -/
theorem price_fallback_no_failure_witness :
    pairSpreadPercent
        (substitutedPrices [("ethereum", some 1), ("celo", some 1)] 0) <
      3/10 :=
  (price_fallback_no_failure (3/10) [("ethereum", some 1), ("celo", some 1)]
      0).1
    (by norm_num [scanPairWithFetches, scanCrossChainPair, substitutedPrices,
      getChainPrice, pairSpreadPercent, entGE])

/-- C9 counterexample: the ethereum fetch fails (`none`), yet the evaluation
does not fail with `PriceUnavailable` — it substitutes the fallback price 1
and still emits an opportunity. -/
theorem price_fallback_counterexample :
    ("ethereum", (none : Option ℚ)) ∈
      [("ethereum", (none : Option ℚ)), ("celo", some (101/100))] ∧
    scanPairWithFetches (3/10)
        [("ethereum", (none : Option ℚ)), ("celo", some (101/100))] 0 =
      some ⟨1, "ethereum_to_celo", "ethereum", "celo", .MEDIUM⟩ := by
  refine ⟨by simp, ?_⟩
  norm_num [scanPairWithFetches, scanCrossChainPair, substitutedPrices,
    getChainPrice, pairSpreadPercent, round4, crossChainConfidence, entGE]
  rfl

/-- C1 (amended): on every status query made after the timelock has passed,
the swap transitions to `EXPIRED` — the code's only guard is
`status !== 'EXPIRED'`, with no exception for `COMPLETED` — and, whenever
the atomic-guarantees block is shown (`enableAtomicSwap`), `canRefund` is
observably true. -/
theorem lazy_expiry_transition :
    ∀ (s : SwapState) (now : ℤ) (cur : Option SpreadCheck),
      now > s.timelock →
      (statusReal s now cur).1.status = "EXPIRED" ∧
      (s.enableAtomicSwap = true →
        ∃ g, (statusReal s now cur).2.atomicGuarantees = some g ∧
          g.canRefund = true) := by
  intro s now cur hgt
  constructor
  · simp only [statusReal]
    by_cases hst : s.status = "EXPIRED"
    · rw [if_neg (fun hc => hc.2 hst)]
      exact hst
    · rw [if_pos ⟨hgt, hst⟩]
      rfl
  · intro hatomic
    simp only [statusReal, hatomic, if_true]
    refine ⟨_, rfl, ?_⟩
    simp only [Bool.or_eq_true, decide_eq_true_eq]
    exact Or.inl hgt

/-- C1 witness: a swap created by the bidirectional-real route with
`timeoutMinutes = 1` (timelock = 60) and no step completed, queried at 61
seconds, reports `EXPIRED` with `canRefund = true`. -/
theorem lazy_expiry_transition_witness :
    (statusReal
        (bidirectionalRealCreate 0 1 "ethereum" "sui" "USDC" "USDC" 50 (1/2) 1
          true "0badc0de" "77aa" ⟨3/5, true, "positive"⟩ "native")
        61 none).1.status = "EXPIRED" ∧
      ∃ g,
        (statusReal
            (bidirectionalRealCreate 0 1 "ethereum" "sui" "USDC" "USDC" 50
              (1/2) 1 true "0badc0de" "77aa" ⟨3/5, true, "positive"⟩ "native")
            61 none).2.atomicGuarantees = some g ∧ g.canRefund = true := by
  have h := lazy_expiry_transition
    (bidirectionalRealCreate 0 1 "ethereum" "sui" "USDC" "USDC" 50 (1/2) 1
      true "0badc0de" "77aa" ⟨3/5, true, "positive"⟩ "native")
    61 none (by norm_num [bidirectionalRealCreate, updateStatus])
  exact ⟨h.1, h.2 rfl⟩

/-- C1 counterexample: a swap that reached `COMPLETED` before its timelock
passed is nevertheless transitioned to `EXPIRED` by the status query —
refuting "but only if the swap has not reached COMPLETED". -/
theorem completed_swap_expires_counterexample :
    completedButPastTimelock.status = "COMPLETED" ∧
    (121 : ℤ) > completedButPastTimelock.timelock ∧
    (statusReal completedButPastTimelock 121 none).1.status = "EXPIRED" := by
  refine ⟨rfl, by norm_num [completedButPastTimelock], ?_⟩
  rfl

/-- C10: the status response is a function of everything in the stored state
EXCEPT the commitment secret — two registry states differing only in
`secret` produce identical responses, so the secret is observable at the
status interface only through the separately stored `hashlock`
(= SHA-256 of the secret at creation).  This holds for every machine
status, `COMPLETED`, `FAILED` and `EXPIRED` included. -/
theorem status_response_secret_noninterference :
    ∀ (s : SwapState) (now : ℤ) (cur : Option SpreadCheck) (x : String),
      (statusReal { s with secret := x } now cur).2 =
        (statusReal s now cur).2 := by
  intro s now cur x
  cases s
  dsimp only [statusReal, updateStatus]
  split <;> rfl
